import Mathlib

/-!
Shallow embedding of the cache-warmer program (src/index.js).

The program is single-file JavaScript.  Network effects (axios GET/POST,
xml2js parsing, timers) are modelled by passing the *outcome* of each
external call as an explicit argument; the program's own control flow,
data construction, error classification and accounting are translated
directly from the source.  Exceptions that the source catches internally
are modelled as values of explicit outcome types; an exception that the
source lets escape is an `Except.error` result.  Time spent sleeping is
accounted as data (counts / milliseconds) rather than as real time.
-/

namespace CacheWarmer

/-- JS truthiness of a possibly-undefined string (`undefined` and `""` are falsy). -/
def jsTruthyStr (o : Option String) : Bool :=
  match o with
  | none => false
  | some s => s ≠ ""

/-- Embedding of `x || "N/A"` applied to a possibly-absent response header. -/
def orNA (o : Option String) : String :=
  match o with
  | none => "N/A"
  | some s => if s = "" then "N/A" else s

/-- Embedding of JS `String.prototype.toLowerCase()` (ASCII, as used by the source). -/
def jsToLower (s : String) : String :=
  String.mk (s.toList.map Char.toLower)

/-- Embedding of JS `String.prototype.split(sep)` over the character list:
accumulator-style splitting at every occurrence of the separator. -/
def jsSplitAux (sep : Char) : List Char → List Char → List (List Char)
  | [], acc => [acc.reverse]
  | c :: rest, acc =>
    if c = sep then acc.reverse :: jsSplitAux sep rest []
    else jsSplitAux sep rest (c :: acc)

/-- JS `s.split(sep)` (single-character separator, as in `cfRay.split("-")`). -/
def jsSplit (sep : Char) (s : String) : List (List Char) :=
  jsSplitAux sep s.toList []

/-- Characters strictly after the first occurrence of `sep` (empty if none). -/
def dropThroughFirst (sep : Char) : List Char → List Char
  | [] => []
  | c :: rest => if c = sep then rest else dropThroughFirst sep rest

/-- Characters before the next occurrence of `sep`. -/
def takeUntil (sep : Char) : List Char → List Char
  | [] => []
  | c :: rest => if c = sep then [] else c :: takeUntil sep rest

/- ====== LOGGER (class AppsScriptLogger) ====== -/

/-- One element of `this.rows`: the 12-tuple pushed by `AppsScriptLogger.log`.
`finishedAt` is `Option String` because the third cell is `null` until
`setFinished` runs; `status`/`responseMs` are `Option Nat` because the JS
cell holds either a number or the empty-string default. -/
structure LogRow where
  runId : String
  startedAt : String
  finishedAt : Option String
  country : String
  url : String
  status : Option Nat
  cfCache : String
  lsCache : String
  cfRay : String
  responseMs : Option Nat
  error : Nat
  message : String
deriving DecidableEq

/-- The argument object of `AppsScriptLogger.log({...})`: each field is
`none` when the caller omits it, so that `log` applies the destructuring
defaults exactly as the source does. -/
structure LogFields where
  country : Option String := none
  url : Option String := none
  status : Option Nat := none
  cfCache : Option String := none
  lsCache : Option String := none
  cfRay : Option String := none
  responseMs : Option Nat := none
  error : Option Nat := none
  message : Option String := none
deriving DecidableEq

/-- State of an `AppsScriptLogger` instance. -/
structure AppsScriptLogger where
  rows : List LogRow
  runId : String
  startedAt : String
  finishedAt : Option String
  sheetName : String
deriving DecidableEq

/-- The row value pushed by `log`: run id, start time, current (possibly null)
finish time, then the defaulted fields; `responseMs` keeps a number and turns
anything else into the empty cell; `error` is normalised with `error ? 1 : 0`. -/
def AppsScriptLogger.mkRow (st : AppsScriptLogger) (f : LogFields) : LogRow :=
  { runId := st.runId
    startedAt := st.startedAt
    finishedAt := st.finishedAt
    country := f.country.getD ""
    url := f.url.getD ""
    status := f.status
    cfCache := f.cfCache.getD ""
    lsCache := f.lsCache.getD ""
    cfRay := f.cfRay.getD ""
    responseMs := f.responseMs
    error := if f.error.getD 0 = 0 then 0 else 1
    message := f.message.getD "" }

/-- `AppsScriptLogger.log`: appends one row built from the given fields. -/
def AppsScriptLogger.log (st : AppsScriptLogger) (f : LogFields) : AppsScriptLogger :=
  { st with rows := st.rows ++ [st.mkRow f] }

/-- `AppsScriptLogger.setFinished`: sets `finishedAt` to the current time
(`now`, supplied by the clock) and rewrites cell 2 of every accumulated row. -/
def AppsScriptLogger.setFinished (st : AppsScriptLogger) (now : String) : AppsScriptLogger :=
  { st with
    finishedAt := some now
    rows := st.rows.map (fun r => { r with finishedAt := some now }) }

/-- Outcome of the `axios.post` to the Apps Script sink, had it been issued. -/
inductive PostOutcome where
  | ok
  | failed (msg : String)
deriving DecidableEq

/-- Observable effect of one `flush()` call: the network request it issued
(if any), the diagnostic warning it printed (if any), and whether an
exception escaped to the caller. -/
structure FlushEffect where
  posted : Option (String × List LogRow)
  warned : Option String
  raised : Bool
deriving DecidableEq

/-- `AppsScriptLogger.flush`: returns early when `APPS_SCRIPT_URL` is falsy or
no rows accumulated; otherwise posts `{sheetName, rows}` and catches any
failure, printing a warning instead of rethrowing. -/
def AppsScriptLogger.flush (appsScriptUrl : Option String) (st : AppsScriptLogger)
    (post : PostOutcome) : FlushEffect :=
  if jsTruthyStr appsScriptUrl = false ∨ st.rows.length = 0 then
    { posted := none, warned := none, raised := false }
  else
    match post with
    | PostOutcome.ok =>
      { posted := some (st.sheetName, st.rows), warned := none, raised := false }
    | PostOutcome.failed m =>
      { posted := some (st.sheetName, st.rows)
        warned := some ("Apps Script logging error: " ++ m)
        raised := false }

/- ====== REQUEST (retryableGet) ====== -/

/-- The error object thrown by a failed `axios.get`: whether
`axios.isAxiosError` holds of it, and its (possibly absent) `code`. -/
structure ErrObj where
  isAxiosError : Bool
  code : Option String
deriving DecidableEq

/-- An HTTP response as consumed by the warmer: status plus the three
response headers it reads (absent headers are `none`). -/
structure Response where
  status : Nat
  cfCacheStatus : Option String
  xLitespeedCache : Option String
  cfRay : Option String
deriving DecidableEq

/-- The transient-error whitelist of `retryableGet`. -/
def transientCodes : List String := ["ECONNABORTED", "ECONNRESET", "ETIMEDOUT"]

/-- The retry condition: `axios.isAxiosError(err) && [...].includes(err?.code || "")`. -/
def isTransient (e : ErrObj) : Bool :=
  e.isAxiosError && transientCodes.contains (e.code.getD "")

/-- Observable result of one `retryableGet` call: the value returned or the
value thrown (`Except.error none` models `throw null`), how many GET attempts
were issued, and how many 2000 ms backoff sleeps were awaited. -/
structure GetTrace where
  result : Except (Option ErrObj) Response
  attemptsMade : Nat
  backoffSleeps : Nat

/-- The `for (let i = 0; i < retries; i++)` loop of `retryableGet`:
`fuel` is the number of remaining iterations, `i` the attempts issued so far,
`lastError` the mutable local, `sleeps` the backoff count so far.  Each failed
attempt stores the error; a non-transient failure breaks out of the loop; a
transient one awaits `sleep(2000)` and retries.  Exhausted fuel throws
`lastError`. -/
def retryableGo (attempts : Nat → Except ErrObj Response) :
    Nat → Nat → Option ErrObj → Nat → GetTrace
  | 0, i, lastError, sleeps => ⟨Except.error lastError, i, sleeps⟩
  | fuel + 1, i, lastError, sleeps =>
    match attempts i with
    | Except.ok r => ⟨Except.ok r, i + 1, sleeps⟩
    | Except.error e =>
      if isTransient e then retryableGo attempts fuel (i + 1) (some e) (sleeps + 1)
      else ⟨Except.error (some e), i + 1, sleeps⟩

/-- `retryableGet(url, cfg, retries)`: `attempts j` is the outcome the network
gives the `j`-th GET; `retries` is a JS number, so it may be non-positive
(the loop then runs zero times). -/
def retryableGet (attempts : Nat → Except ErrObj Response) (retries : Int) : GetTrace :=
  retryableGo attempts retries.toNat 0 none 0

/- ====== SITEMAP ====== -/

/-- One `<sitemap>`/`<url>` entry as produced by xml2js: its `loc` child,
absent when the element has none. -/
structure XmlEntry where
  loc : Option String
deriving DecidableEq

/-- Combined outcome of `fetchWithProxy` + `parseStringPromise` + the
optional-chain `result?.sitemapindex?.sitemap` (resp. `result?.urlset?.url`):
the fetch/parse threw, the chain was undefined, or it produced a single
entry or an array of entries (xml2js with `explicitArray: false`). -/
inductive FetchParse where
  | failure
  | missing
  | single (e : XmlEntry)
  | multiple (es : List XmlEntry)
deriving DecidableEq

/-- Embedding of `.filter(Boolean)` over the result of `.map((e) => e.loc)`:
drops `undefined` and `""`. -/
def jsFilterBoolean (l : List (Option String)) : List String :=
  l.filterMap (fun o =>
    match o with
    | some s => if s = "" then none else some s
    | none => none)

/-- `fetchIndexSitemaps`: empty list on any failure or missing structure,
otherwise the truthy `loc` values (a lone entry normalised to a one-element
array, as `Array.isArray(list) ? list : [list]` does). -/
def fetchIndexSitemaps (r : FetchParse) : List String :=
  match r with
  | FetchParse.failure => []
  | FetchParse.missing => []
  | FetchParse.single e => jsFilterBoolean ([e].map XmlEntry.loc)
  | FetchParse.multiple es => jsFilterBoolean (es.map XmlEntry.loc)

/-- `fetchUrlsFromSitemap`: same shape as `fetchIndexSitemaps`, over
`result?.urlset?.url`. -/
def fetchUrlsFromSitemap (r : FetchParse) : List String :=
  match r with
  | FetchParse.failure => []
  | FetchParse.missing => []
  | FetchParse.single e => jsFilterBoolean ([e].map XmlEntry.loc)
  | FetchParse.multiple es => jsFilterBoolean (es.map XmlEntry.loc)

/-- The URL-set construction in `main` for one domain:
`sitemapList = await fetchIndexSitemaps(...)`, one `fetchUrlsFromSitemap`
per child (`children s` is the fetch/parse outcome for child sitemap `s`),
then `urlArrays.flat().filter(Boolean)`. -/
def resolveUrls (idx : FetchParse) (children : String → FetchParse) : List String :=
  let sitemapList := fetchIndexSitemaps idx
  let urlArrays := sitemapList.map (fun s => fetchUrlsFromSitemap (children s))
  urlArrays.flatten.filter (fun s => s ≠ "")

/- ====== WARMING (warmUrls) ====== -/

/-- Outcome the network gives one warmed URL: the response of a successful
`retryableGet`, or the thrown error's `message` (`none` when the `message`
property is absent, mirroring `err?.message`). -/
inductive FetchOutcome where
  | success (res : Response)
  | failure (errMessage : Option String)
deriving DecidableEq

/-- The body of the per-URL closure in `warmUrls`: given the configured
`country`, the `url`, the fetch outcome and the elapsed `dt` milliseconds,
it yields the fields passed to `logger.log` and the number of
`purgeCloudflareCache` calls issued (0 or 1). -/
def warmOne (country url : String) (outcome : FetchOutcome) (dt : Nat) : LogFields × Nat :=
  match outcome with
  | FetchOutcome.success res =>
    let cfCache := orNA res.cfCacheStatus
    let lsCache := orNA res.xLitespeedCache
    let cfRayS := orNA res.cfRay
    let cfEdge :=
      if '-' ∈ cfRayS.toList then String.mk (((jsSplit '-' cfRayS).get? 1).getD [])
      else "N/A"
    ({ country := some cfEdge
       url := some url
       status := some res.status
       cfCache := some cfCache
       lsCache := some lsCache
       cfRay := some cfRayS
       responseMs := some dt
       error := some 0
       message := some "" },
     if jsToLower lsCache ≠ "hit" then 1 else 0)
  | FetchOutcome.failure errMessage =>
    ({ country := some country
       url := some url
       responseMs := some dt
       error := some 1
       message := some (match errMessage with
         | some m => if m = "" then "request failed" else m
         | none => "request failed") },
     0)

/-- The batch construction of `warmUrls`:
`Array.from({length: Math.ceil(urls.length / batchSize)}, (_, i) =>
urls.slice(i * batchSize, i * batchSize + batchSize))`.
For `batchSize > 0`, `Math.ceil(n / b)` is `(n + b - 1) / b` in naturals. -/
def batches (urls : List String) (batchSize : Nat) : List (List String) :=
  (List.range ((urls.length + batchSize - 1) / batchSize)).map
    (fun i => (urls.drop (i * batchSize)).take batchSize)

/-- Result of a `warmUrls` call: the logger afterwards, the total number of
purge calls issued, and the total milliseconds of inter-batch `sleep(delay)`
awaited by the batch loop (the 2000 ms retry backoffs are accounted inside
`retryableGet`, not here). -/
structure WarmResult where
  logger : AppsScriptLogger
  purgeCalls : Nat
  interBatchSleepMs : Nat

/-- One batch of the `Promise.all(batch.map(...))` stage: every URL of the
batch is processed with `warmOne` and its row appended.  The cooperative
scheduler serialises the appends; their relative order within a batch is not
observable to any claim, and is modelled as batch order. -/
def processBatch (country : String) (outcome : String → FetchOutcome) (dt : String → Nat)
    (batch : List String) (st : AppsScriptLogger) : AppsScriptLogger × Nat :=
  batch.foldl
    (fun acc url =>
      (acc.1.log (warmOne country url (outcome url) (dt url)).1,
       acc.2 + (warmOne country url (outcome url) (dt url)).2))
    (st, 0)

/-- The `for (const batch of batches)` loop: process the batch, then
`await sleep(delay)` — after every batch, the last one included. -/
def warmLoop (country : String) (outcome : String → FetchOutcome) (dt : String → Nat)
    (delay : Nat) : List (List String) → AppsScriptLogger → WarmResult
  | [], st => ⟨st, 0, 0⟩
  | b :: rest, st =>
    let step := processBatch country outcome dt b st
    let r := warmLoop country outcome dt delay rest step.1
    ⟨r.logger, step.2 + r.purgeCalls, delay + r.interBatchSleepMs⟩

/-- `warmUrls(urls, country, logger, batchSize, delay)`. -/
def warmUrls (urls : List String) (country : String) (outcome : String → FetchOutcome)
    (dt : String → Nat) (st : AppsScriptLogger) (batchSize delay : Nat) : WarmResult :=
  warmLoop country outcome dt delay (batches urls batchSize) st

/-- The per-domain closure of `main`: resolve the URL set, log the
`Found N URLs for country` summary row, then warm with the default
`batchSize = 1`, `delay = 2000`. -/
def domainStep (country : String) (idx : FetchParse) (children : String → FetchParse)
    (outcome : String → FetchOutcome) (dt : String → Nat)
    (st : AppsScriptLogger) : AppsScriptLogger :=
  let urls := resolveUrls idx children
  let st1 := st.log
    { country := some country
      message := some ("Found " ++ toString urls.length ++ " URLs for " ++ country) }
  (warmUrls urls country outcome dt st1 1 2000).logger

/- ====== Spec-side definitions (for refinement comparison) and fixtures ====== -/

/-- Spec-side predicate: the secondary cache status header equals `"hit"`
case-insensitively (false when the header is absent). -/
def headerEqHitCI (o : Option String) : Bool :=
  match o with
  | some s => jsToLower s == "hit"
  | none => false

/-- Spec-side (amended) edge-location token: the characters between the first
and the second hyphen of the trace header value (to the end when there is only
one hyphen), with the `"N/A"` sentinel when the header is absent, empty, or
hyphen-free. -/
def edgeTokenSpec (o : Option String) : String :=
  match o with
  | none => "N/A"
  | some s =>
    if s = "" then "N/A"
    else if '-' ∈ s.toList then String.mk (takeUntil '-' (dropThroughFirst '-' s.toList))
    else "N/A"

/-- Claim-side literal reading of C4: split the trace value on its FIRST
hyphen and take the second segment, i.e. everything after the first hyphen. -/
def afterFirstHyphen (s : String) : String :=
  String.mk (dropThroughFirst '-' s.toList)

/-- A concrete logger state, as built by the `AppsScriptLogger` constructor. -/
def logger0 : AppsScriptLogger :=
  { rows := []
    runId := "run1"
    startedAt := "2026-01-01T00:00:00.000Z"
    finishedAt := none
    sheetName := "2026-01-01_08-00-00_WITA" }

/-- A concrete accumulated row with the finish cell still null. -/
def row0 : LogRow :=
  { runId := "run1"
    startedAt := "2026-01-01T00:00:00.000Z"
    finishedAt := none
    country := "id"
    url := "https://divemasterlembongan.com/p"
    status := some 200
    cfCache := "HIT"
    lsCache := "hit"
    cfRay := "ab-SIN"
    responseMs := some 120
    error := 0
    message := "" }

/-- `logger0` after one row has been appended. -/
def logger1 : AppsScriptLogger :=
  { logger0 with rows := [row0] }

/- ====== Helper lemmas ====== -/

lemma get?_zero_eq_head? {α : Type} (l : List α) : l.get? 0 = l.head? := by
  cases l <;> rfl

lemma jsSplitAux_head? (sep : Char) :
    ∀ (cs acc : List Char),
      (jsSplitAux sep cs acc).head? = some (acc.reverse ++ takeUntil sep cs) := by
  intro cs
  induction cs with
  | nil => intro acc; simp [jsSplitAux, takeUntil]
  | cons c rest ih =>
    intro acc
    by_cases hc : c = sep
    · simp [jsSplitAux, takeUntil, hc]
    · simp [jsSplitAux, takeUntil, hc, ih]

/-- Element 1 of a JS split, when the separator occurs: the characters
between the first and the second occurrence of the separator. -/
lemma jsSplitAux_get?_one (sep : Char) :
    ∀ (cs : List Char), sep ∈ cs → ∀ acc,
      (jsSplitAux sep cs acc).get? 1 =
        some (takeUntil sep (dropThroughFirst sep cs)) := by
  intro cs
  induction cs with
  | nil => intro h; exact absurd h (List.not_mem_nil sep)
  | cons c rest ih =>
    intro h acc
    by_cases hc : c = sep
    · subst hc
      simp only [jsSplitAux, if_pos rfl, dropThroughFirst]
      show (jsSplitAux c rest []).get? 0 = _
      rw [get?_zero_eq_head?, jsSplitAux_head? c rest []]
      simp
    · have hr : sep ∈ rest := by
        rcases List.mem_cons.mp h with h1 | h1
        · exact absurd h1.symm hc
        · exact h1
      simp only [jsSplitAux, if_neg hc, dropThroughFirst]
      exact ih hr (c :: acc)

lemma batches_nil (B : Nat) : batches [] B = [] := by
  unfold batches
  cases B with
  | zero => rfl
  | succ b =>
    have h : (List.length ([] : List String) + (b + 1) - 1) / (b + 1) = 0 :=
      Nat.div_eq_of_lt (by simp)
    rw [h]
    rfl

lemma batches_cons (B : Nat) (hB : 0 < B) (urls : List String) (h : urls ≠ []) :
    batches urls B = urls.take B :: batches (urls.drop B) B := by
  have hn : 0 < urls.length := List.length_pos.mpr h
  have hk : (urls.length + B - 1) / B = ((urls.drop B).length + B - 1) / B + 1 := by
    rw [List.length_drop]
    rcases Nat.le_total B urls.length with hle | hle
    · have h1 : urls.length + B - 1 = (urls.length - B + B - 1) + B := by omega
      rw [h1, Nat.add_div_right _ hB]
    · have h2 : urls.length - B = 0 := by omega
      have h3 : urls.length + B - 1 = (urls.length - 1) + B := by omega
      rw [h2, h3, Nat.add_div_right _ hB, Nat.div_eq_of_lt (by omega),
        Nat.div_eq_of_lt (by omega)]
  unfold batches
  rw [hk, List.range_succ_eq_map, List.map_cons]
  congr 1
  · simp
  · rw [List.map_map]
    congr 1
    funext j
    simp only [Function.comp]
    rw [List.drop_drop]
    congr 2
    rw [Nat.succ_mul]
    omega

lemma batches_flatten_aux (B : Nat) (hB : 0 < B) :
    ∀ (n : Nat) (urls : List String), urls.length ≤ n → (batches urls B).flatten = urls := by
  intro n
  induction n with
  | zero =>
    intro urls h
    have h0 : urls = [] := List.eq_nil_of_length_eq_zero (Nat.le_zero.mp h)
    rw [h0, batches_nil]
    rfl
  | succ m ih =>
    intro urls h
    by_cases hu : urls = []
    · rw [hu, batches_nil]; rfl
    · rw [batches_cons B hB urls hu]
      rw [List.flatten_cons]
      rw [ih (urls.drop B) (by rw [List.length_drop]; have := List.length_pos.mpr hu; omega)]
      exact List.take_append_drop B urls

lemma batches_flatten (B : Nat) (hB : 0 < B) (urls : List String) :
    (batches urls B).flatten = urls :=
  batches_flatten_aux B hB urls.length urls (Nat.le_refl _)

lemma batches_length (urls : List String) (B : Nat) :
    (batches urls B).length = (urls.length + B - 1) / B := by
  unfold batches
  rw [List.length_map, List.length_range]

lemma warmLoop_sleep (country : String) (outcome : String → FetchOutcome)
    (dt : String → Nat) (delay : Nat) :
    ∀ (bs : List (List String)) (st : AppsScriptLogger),
      (warmLoop country outcome dt delay bs st).interBatchSleepMs = bs.length * delay := by
  intro bs
  induction bs with
  | nil => intro st; simp [warmLoop]
  | cons b rest ih =>
    intro st
    simp only [warmLoop]
    rw [ih]
    rw [List.length_cons, Nat.succ_mul]
    omega

lemma retryableGo_step_ok (attempts : Nat → Except ErrObj Response)
    (fl i : Nat) (le : Option ErrObj) (s : Nat) (r : Response)
    (h : attempts i = Except.ok r) :
    retryableGo attempts (fl + 1) i le s = ⟨Except.ok r, i + 1, s⟩ := by
  simp only [retryableGo, h]

lemma retryableGo_step_err (attempts : Nat → Except ErrObj Response)
    (fl i : Nat) (le : Option ErrObj) (s : Nat) (e : ErrObj)
    (h : attempts i = Except.error e) :
    retryableGo attempts (fl + 1) i le s =
      if isTransient e then retryableGo attempts fl (i + 1) (some e) (s + 1)
      else ⟨Except.error (some e), i + 1, s⟩ := by
  simp only [retryableGo, h]

lemma retryableGo_transient (attempts : Nat → Except ErrObj Response) (errs : Nat → ErrObj)
    (hA : ∀ j, attempts j = Except.error (errs j))
    (hT : ∀ j, isTransient (errs j) = true) :
    ∀ (fuel i : Nat) (lastErr : Option ErrObj) (sleeps : Nat),
      retryableGo attempts (fuel + 1) i lastErr sleeps =
        ⟨Except.error (some (errs (i + fuel))), i + fuel + 1, sleeps + fuel + 1⟩ := by
  intro fuel
  induction fuel with
  | zero =>
    intro i le s
    rw [retryableGo_step_err attempts 0 i le s (errs i) (hA i), if_pos (hT i)]
    simp [retryableGo]
  | succ f ih =>
    intro i le s
    rw [retryableGo_step_err attempts (f + 1) i le s (errs i) (hA i), if_pos (hT i)]
    rw [ih (i + 1) (some (errs i)) (s + 1)]
    have h1 : i + 1 + f = i + (f + 1) := by omega
    have h2 : s + 1 + f = s + (f + 1) := by omega
    rw [h1, h2]

lemma retryableGo_bounds (attempts : Nat → Except ErrObj Response) :
    ∀ (fuel i : Nat) (lastErr : Option ErrObj) (sleeps : Nat),
      (retryableGo attempts fuel i lastErr sleeps).attemptsMade ≤ i + fuel ∧
      (retryableGo attempts fuel i lastErr sleeps).backoffSleeps ≤ sleeps + fuel := by
  intro fuel
  induction fuel with
  | zero =>
    intro i le s
    constructor <;> simp [retryableGo]
  | succ f ih =>
    intro i le s
    cases h : attempts i with
    | ok r =>
      rw [retryableGo_step_ok attempts f i le s r h]
      constructor <;> simp
    | error e =>
      rw [retryableGo_step_err attempts f i le s e h]
      by_cases ht : isTransient e
      · rw [if_pos ht]
        have hih := ih (i + 1) (some e) (s + 1)
        constructor
        · exact le_trans hih.1 (by omega)
        · exact le_trans hih.2 (by omega)
      · rw [if_neg ht]
        constructor <;> simp

lemma mem_jsFilterBoolean_ne (l : List (Option String)) (s : String)
    (h : s ∈ jsFilterBoolean l) : s ≠ "" := by
  rw [jsFilterBoolean, List.mem_filterMap] at h
  obtain ⟨o, _, hf⟩ := h
  cases o with
  | none => exact absurd hf (by simp)
  | some t =>
    simp only [] at hf
    by_cases ht : t = ""
    · rw [if_pos ht] at hf
      exact absurd hf (by simp)
    · rw [if_neg ht] at hf
      have := Option.some.inj hf
      rw [← this]
      exact ht

lemma mem_fetchUrlsFromSitemap_ne (r : FetchParse) (s : String)
    (h : s ∈ fetchUrlsFromSitemap r) : s ≠ "" := by
  cases r with
  | failure => exact absurd h (by simp [fetchUrlsFromSitemap])
  | missing => exact absurd h (by simp [fetchUrlsFromSitemap])
  | single e => exact mem_jsFilterBoolean_ne _ _ h
  | multiple es => exact mem_jsFilterBoolean_ne _ _ h

/-- The final `.filter(Boolean)` in `main` is the identity: each child list
was already filtered, so the resolved URL set is exactly the concatenation of
the child sitemaps' URL lists. -/
lemma resolveUrls_eq_flatten (idx : FetchParse) (children : String → FetchParse) :
    resolveUrls idx children =
      ((fetchIndexSitemaps idx).map (fun s => fetchUrlsFromSitemap (children s))).flatten := by
  unfold resolveUrls
  apply List.filter_eq_self.mpr
  intro a ha
  rw [List.mem_flatten] at ha
  obtain ⟨li, hli, hai⟩ := ha
  rw [List.mem_map] at hli
  obtain ⟨s, _, hs⟩ := hli
  rw [← hs] at hai
  have hne := mem_fetchUrlsFromSitemap_ne _ _ hai
  exact decide_eq_true hne

/-- The source's edge-token computation (`cfRay.includes("-") ?
cfRay.split("-")[1] : "N/A"`, after the `|| "N/A"` defaulting) equals the
between-first-and-second-hyphen characterization. -/
lemma cfEdge_eq_spec (o : Option String) :
    (if '-' ∈ (orNA o).toList
     then String.mk (((jsSplit '-' (orNA o)).get? 1).getD [])
     else "N/A") = edgeTokenSpec o := by
  cases o with
  | none => decide
  | some s =>
    by_cases hs : s = ""
    · rw [hs]; decide
    · have ho : orNA (some s) = s := by simp [orNA, hs]
      have he : edgeTokenSpec (some s)
          = (if s = "" then "N/A"
             else if '-' ∈ s.toList
                  then String.mk (takeUntil '-' (dropThroughFirst '-' s.toList))
                  else "N/A") := rfl
      rw [ho, he]
      by_cases hm : '-' ∈ s.toList
      · rw [if_pos hm, if_neg hs, if_pos hm]
        rw [jsSplit, jsSplitAux_get?_one '-' s.toList hm []]
        rfl
      · rw [if_neg hm, if_neg hs, if_neg hm]

/- ====== Claim theorems ====== -/

/-- C1 (counterexample): with one URL, batch size 1 and delay 2000 the claim
predicts `(ceil(1/1) - 1) * 2000 = 0` ms of total inter-batch delay, but
`warmUrls` awaits `sleep(delay)` after the final batch too, incurring 2000 ms. -/
theorem c1_counterexample :
    (warmUrls ["https://divemasterlembongan.com/a"] "id" (fun _ => FetchOutcome.failure none)
        (fun _ => 0) logger0 1 2000).interBatchSleepMs = 2000
    ∧ ((((["https://divemasterlembongan.com/a"] : List String).length + 1 - 1) / 1 - 1) * 2000 = 0)
    ∧ ¬((warmUrls ["https://divemasterlembongan.com/a"] "id" (fun _ => FetchOutcome.failure none)
        (fun _ => 0) logger0 1 2000).interBatchSleepMs
      = ((((["https://divemasterlembongan.com/a"] : List String).length + 1 - 1) / 1 - 1) * 2000)) := by
  decide

/-- C1 (amended): for batch size `B > 0`, `warmUrls` partitions the URL list
into `ceil(N/B)` consecutive order-preserving batches processed sequentially,
and the total inter-batch delay is `ceil(N/B) * delay` — the fixed delay is
awaited after every batch, including the final one. -/
theorem c1_warm_batches_and_delay (urls : List String) (country : String)
    (outcome : String → FetchOutcome) (dt : String → Nat) (st : AppsScriptLogger)
    (B delay : Nat) (hB : 0 < B) :
    (batches urls B).length = (urls.length + B - 1) / B
    ∧ (batches urls B).flatten = urls
    ∧ (warmUrls urls country outcome dt st B delay).interBatchSleepMs
        = ((urls.length + B - 1) / B) * delay := by
  refine ⟨batches_length urls B, batches_flatten B hB urls, ?_⟩
  show (warmLoop country outcome dt delay (batches urls B) st).interBatchSleepMs = _
  rw [warmLoop_sleep country outcome dt delay (batches urls B) st, batches_length]

/-- C1 witness: three URLs, batch size 2, delay 7 — two batches, 14 ms total. -/
theorem c1_warm_batches_and_delay_witness :
    (batches ["a", "b", "c"] 2).length = ((["a", "b", "c"] : List String).length + 2 - 1) / 2
    ∧ (batches ["a", "b", "c"] 2).flatten = ["a", "b", "c"]
    ∧ (warmUrls ["a", "b", "c"] "id" (fun _ => FetchOutcome.failure none) (fun _ => 0)
        logger0 2 7).interBatchSleepMs = (((["a", "b", "c"] : List String).length + 2 - 1) / 2) * 7 :=
  c1_warm_batches_and_delay ["a", "b", "c"] "id" (fun _ => FetchOutcome.failure none)
    (fun _ => 0) logger0 2 7 (by decide)

/-- C2 (counterexample): with attempt cap 1 and a transient (`ETIMEDOUT`)
failure, the claim allows at most `1 - 1 = 0` backoff waits, but the code
awaits `sleep(2000)` after the failing final attempt: one backoff wait. -/
theorem c2_counterexample :
    (retryableGet (fun _ => Except.error ⟨true, some "ETIMEDOUT"⟩) (Int.ofNat 1)).backoffSleeps = 1
    ∧ ¬((retryableGet (fun _ => Except.error ⟨true, some "ETIMEDOUT"⟩)
        (Int.ofNat 1)).backoffSleeps ≤ 1 - 1) := by
  decide

/-- C2 (amended): for an attempt cap `n ≥ 1`, (a) when every attempt fails
with a transient (axios, whitelisted-code) error, `retryableGet` issues
exactly `n` attempts, awaits the fixed 2000 ms backoff after every transiently
failing attempt — the last included, so `n` backoff waits — and throws the
last error; (b) a non-transient failure of the first attempt aborts
immediately: one attempt, zero backoff waits, the error thrown; (c) in every
case at most `n` attempts are issued and at most `n` backoff waits occur. -/
theorem c2_retry_policy (attempts : Nat → Except ErrObj Response) (errs : Nat → ErrObj)
    (n : Nat) (hn : 1 ≤ n) :
    ((∀ j, attempts j = Except.error (errs j) ∧ isTransient (errs j) = true) →
      retryableGet attempts (Int.ofNat n)
        = ⟨Except.error (some (errs (n - 1))), n, n⟩)
    ∧ ((attempts 0 = Except.error (errs 0) ∧ isTransient (errs 0) = false) →
      retryableGet attempts (Int.ofNat n) = ⟨Except.error (some (errs 0)), 1, 0⟩)
    ∧ (retryableGet attempts (Int.ofNat n)).attemptsMade ≤ n
    ∧ (retryableGet attempts (Int.ofNat n)).backoffSleeps ≤ n := by
  obtain ⟨m, rfl⟩ : ∃ m, n = m + 1 := ⟨n - 1, by omega⟩
  have hget : retryableGet attempts (Int.ofNat (m + 1))
      = retryableGo attempts (m + 1) 0 none 0 := rfl
  refine ⟨?_, ?_, ?_, ?_⟩
  · intro h
    rw [hget, retryableGo_transient attempts errs (fun j => (h j).1) (fun j => (h j).2) m 0 none 0]
    rw [Nat.zero_add, Nat.add_sub_cancel]
  · intro h
    rw [hget, retryableGo_step_err attempts m 0 none 0 (errs 0) h.1,
      if_neg (by rw [h.2]; exact Bool.false_ne_true)]
  · rw [hget]
    exact le_trans (retryableGo_bounds attempts (m + 1) 0 none 0).1 (by omega)
  · rw [hget]
    exact le_trans (retryableGo_bounds attempts (m + 1) 0 none 0).2 (by omega)

/-- C2 witness: cap 2, every attempt timing out — two attempts, two backoff
waits, the last error thrown. -/
theorem c2_retry_policy_witness :
    retryableGet (fun _ => Except.error ⟨true, some "ETIMEDOUT"⟩) (Int.ofNat 2)
      = ⟨Except.error (some ⟨true, some "ETIMEDOUT"⟩), 2, 2⟩ :=
  (c2_retry_policy (fun _ => Except.error ⟨true, some "ETIMEDOUT"⟩)
    (fun _ => ⟨true, some "ETIMEDOUT"⟩) 2 (by decide)).1
    (fun _ => ⟨rfl, by decide⟩)

/-- C3: on fetch success the warmer calls `purgeCloudflareCache` exactly once
when the `x-litespeed-cache` header does not equal `"hit"` case-insensitively
(including when the header is absent), and not at all when it does. -/
theorem c3_purge_policy (country url : String) (res : Response) (dt : Nat) :
    (warmOne country url (FetchOutcome.success res) dt).2
      = if headerEqHitCI res.xLitespeedCache then 0 else 1 := by
  cases h : res.xLitespeedCache with
  | none =>
    simp only [warmOne, h]
    decide
  | some s =>
    by_cases hs : s = ""
    · subst hs
      simp only [warmOne, h]
      decide
    · have ho : orNA (some s) = s := by simp [orNA, hs]
      by_cases hh : jsToLower s = "hit"
      · simp [warmOne, h, ho, headerEqHitCI, hh]
      · simp [warmOne, h, ho, headerEqHitCI, hh]

/-- C4 (counterexample): for trace header `abcd-SIN-X`, the code logs the
identity `SIN` (the segment between the first and second hyphen), not
`SIN-X` (the second segment of splitting on the first hyphen, as the claim
states). -/
theorem c4_counterexample :
    (logger0.mkRow (warmOne "id" "https://divemasterlembongan.com/p"
        (FetchOutcome.success ⟨200, some "HIT", some "hit", some "abcd-SIN-X"⟩) 5).1).country
      = "SIN"
    ∧ afterFirstHyphen "abcd-SIN-X" = "SIN-X"
    ∧ ¬((logger0.mkRow (warmOne "id" "https://divemasterlembongan.com/p"
        (FetchOutcome.success ⟨200, some "HIT", some "hit", some "abcd-SIN-X"⟩) 5).1).country
      = afterFirstHyphen "abcd-SIN-X") := by
  decide

/-- C4 (amended): on fetch success the logged row's identity field is the
edge token between the first and the second hyphen of the trace header
(to the end when there is only one hyphen; `"N/A"` when the header is absent,
empty or hyphen-free); on fetch failure it is the configured identity. -/
theorem c4_identity_field (country url : String) (res : Response) (dt : Nat)
    (errMsg : Option String) (st : AppsScriptLogger) :
    (st.mkRow (warmOne country url (FetchOutcome.success res) dt).1).country
        = edgeTokenSpec res.cfRay
    ∧ (st.mkRow (warmOne country url (FetchOutcome.failure errMsg) dt).1).country
        = country := by
  constructor
  · have h1 : (st.mkRow (warmOne country url (FetchOutcome.success res) dt).1).country
        = (if '-' ∈ (orNA res.cfRay).toList
           then String.mk (((jsSplit '-' (orNA res.cfRay)).get? 1).getD [])
           else "N/A") := rfl
    rw [h1, cfEdge_eq_spec]
  · rfl

/-- C5: after `setFinished` runs with (non-empty) timestamp `now`, every
previously appended row carries finish timestamp `now` — identical across
rows, non-null, non-empty, and equal to the run's own finish timestamp. -/
theorem c5_finalize_stamps (st : AppsScriptLogger) (now : String) (hnow : now ≠ "")
    (r : LogRow) (hr : r ∈ (st.setFinished now).rows) :
    r.finishedAt = some now
    ∧ (st.setFinished now).finishedAt = some now
    ∧ r.finishedAt ≠ none
    ∧ r.finishedAt ≠ some "" := by
  have h1 : r.finishedAt = some now := by
    simp only [AppsScriptLogger.setFinished] at hr
    rw [List.mem_map] at hr
    obtain ⟨r0, _, hr0⟩ := hr
    rw [← hr0]
  refine ⟨h1, rfl, ?_, ?_⟩
  · rw [h1]; exact Option.some_ne_none now
  · rw [h1]
    intro hc
    exact hnow (Option.some.inj hc)

/-- C5 witness: a logger holding one unstamped row, finalized at a concrete
timestamp. -/
theorem c5_finalize_stamps_witness :
    ({ row0 with finishedAt := some "2026-01-01T00:05:00.000Z" } : LogRow).finishedAt
        = some "2026-01-01T00:05:00.000Z"
    ∧ (logger1.setFinished "2026-01-01T00:05:00.000Z").finishedAt
        = some "2026-01-01T00:05:00.000Z"
    ∧ ({ row0 with finishedAt := some "2026-01-01T00:05:00.000Z" } : LogRow).finishedAt ≠ none
    ∧ ({ row0 with finishedAt := some "2026-01-01T00:05:00.000Z" } : LogRow).finishedAt ≠ some "" :=
  c5_finalize_stamps logger1 "2026-01-01T00:05:00.000Z" (by decide)
    { row0 with finishedAt := some "2026-01-01T00:05:00.000Z" } (by decide)

/-- C6 (counterexample): an index with two child sitemaps that both list the
same page URL resolves to that URL twice — the URL sequence handed to the
warmer is not deduplicated. -/
theorem c6_counterexample :
    resolveUrls (FetchParse.multiple [⟨some "https://d/s1.xml"⟩, ⟨some "https://d/s2.xml"⟩])
        (fun _ => FetchParse.single ⟨some "https://d/p"⟩)
      = ["https://d/p", "https://d/p"]
    ∧ ¬(resolveUrls (FetchParse.multiple [⟨some "https://d/s1.xml"⟩, ⟨some "https://d/s2.xml"⟩])
        (fun _ => FetchParse.single ⟨some "https://d/p"⟩)).Nodup := by
  decide

/-- C6 (amended): the URL sequence handed to the Cache Warmer is exactly the
order-preserving concatenation of the child sitemaps' (already truthiness-
filtered) URL lists; no deduplication is performed. -/
theorem c6_flatten_no_dedup (idx : FetchParse) (children : String → FetchParse) :
    resolveUrls idx children
      = ((fetchIndexSitemaps idx).map (fun s => fetchUrlsFromSitemap (children s))).flatten :=
  resolveUrls_eq_flatten idx children

/-- C7: sitemap resolution is total over every fetch/parse outcome — a failed
index fetch yields the empty URL set, a failed child sitemap contributes zero
URLs while the others still contribute (the result is always the flattening of
per-child results), and a domain whose index fetch fails still appends exactly
the `Found 0 URLs` summary row while the pipeline completes (in the source all
these failures are caught; no exception escapes `fetchIndexSitemaps`,
`fetchUrlsFromSitemap` or `main`'s per-domain closure). -/
theorem c7_resolution_never_raises (country : String) (children : String → FetchParse)
    (outcome : String → FetchOutcome) (dt : String → Nat) (st : AppsScriptLogger) :
    fetchIndexSitemaps FetchParse.failure = []
    ∧ fetchUrlsFromSitemap FetchParse.failure = []
    ∧ resolveUrls FetchParse.failure children = []
    ∧ (∀ idx : FetchParse, resolveUrls idx children
        = ((fetchIndexSitemaps idx).map (fun s => fetchUrlsFromSitemap (children s))).flatten)
    ∧ domainStep country FetchParse.failure children outcome dt st
        = st.log { country := some country
                   message := some ("Found 0 URLs for " ++ country) } := by
  refine ⟨rfl, rfl, rfl, fun idx => resolveUrls_eq_flatten idx children, ?_⟩
  have h0 : resolveUrls FetchParse.failure children = [] := rfl
  have hmsg : ("Found " ++ toString (List.length ([] : List String)) ++ " URLs for " ++ country : String)
      = "Found 0 URLs for " ++ country := by
    have h : ("Found " ++ toString (List.length ([] : List String)) ++ " URLs for " : String)
        = "Found 0 URLs for " := rfl
    rw [h]
  simp only [domainStep, h0]
  rw [hmsg]
  unfold warmUrls
  rw [batches_nil]
  rfl

/-- C8: `flush` is exception-safe — with a falsy sink URL or zero rows it
makes no network call and does not raise; otherwise a failed post is caught
and turned into a diagnostic warning; in every case nothing is raised. -/
theorem c8_flush_safe (url : Option String) (st : AppsScriptLogger)
    (post : PostOutcome) (m : String) :
    ((jsTruthyStr url = false ∨ st.rows = []) →
      (AppsScriptLogger.flush url st post).posted = none)
    ∧ (AppsScriptLogger.flush url st post).raised = false
    ∧ (jsTruthyStr url = true → st.rows ≠ [] →
      AppsScriptLogger.flush url st (PostOutcome.failed m)
        = ⟨some (st.sheetName, st.rows), some ("Apps Script logging error: " ++ m), false⟩) := by
  refine ⟨?_, ?_, ?_⟩
  · intro h
    have hc : jsTruthyStr url = false ∨ st.rows.length = 0 := by
      rcases h with h | h
      · exact Or.inl h
      · exact Or.inr (by rw [h]; rfl)
    unfold AppsScriptLogger.flush
    rw [if_pos hc]
  · unfold AppsScriptLogger.flush
    by_cases hc : jsTruthyStr url = false ∨ st.rows.length = 0
    · rw [if_pos hc]
    · rw [if_neg hc]
      cases post <;> rfl
  · intro h1 h2
    have hc : ¬(jsTruthyStr url = false ∨ st.rows.length = 0) := by
      intro hc
      rcases hc with hc | hc
      · rw [h1] at hc
        exact Bool.noConfusion hc
      · exact h2 (List.length_eq_zero.mp hc)
    unfold AppsScriptLogger.flush
    rw [if_neg hc]

/-- C8 witness: an unconfigured sink makes no call and does not raise; a
configured sink with a failing post warns and does not raise. -/
theorem c8_flush_safe_witness :
    (AppsScriptLogger.flush none logger1 (PostOutcome.failed "boom")).posted = none
    ∧ (AppsScriptLogger.flush none logger1 (PostOutcome.failed "boom")).raised = false
    ∧ AppsScriptLogger.flush (some "https://script.google.com/x") logger1 (PostOutcome.failed "boom")
        = ⟨some (logger1.sheetName, logger1.rows),
           some ("Apps Script logging error: " ++ "boom"), false⟩ :=
  ⟨(c8_flush_safe none logger1 (PostOutcome.failed "boom") "boom").1 (Or.inl rfl),
   (c8_flush_safe none logger1 (PostOutcome.failed "boom") "boom").2.1,
   (c8_flush_safe (some "https://script.google.com/x") logger1
      (PostOutcome.failed "boom") "boom").2.2 (by decide) (by decide)⟩

/-- C9: a non-positive attempt cap makes the retry loop run zero times, so
`retryableGet` issues no HTTP attempt, awaits no backoff, and throws the
never-assigned `lastError`, i.e. the null value (`Except.error none`), not an
Error object. -/
theorem c9_nonpositive_retries (attempts : Nat → Except ErrObj Response) (retries : Int)
    (h : retries ≤ 0) :
    retryableGet attempts retries = ⟨Except.error none, 0, 0⟩ := by
  have h0 : retries.toNat = 0 := Int.toNat_of_nonpos h
  unfold retryableGet
  rw [h0]
  rfl

/-- C9 witness: attempt cap -2. -/
theorem c9_nonpositive_retries_witness :
    ((-2 : Int) ≤ 0)
    ∧ retryableGet (fun _ => Except.ok ⟨200, none, none, none⟩) (-2)
        = ⟨Except.error none, 0, 0⟩ :=
  ⟨by decide, c9_nonpositive_retries (fun _ => Except.ok ⟨200, none, none, none⟩) (-2) (by decide)⟩

/-- C10: `setFinished` is a frame-preserving update — the number and order of
rows are unchanged, every field other than the finish timestamp of every row
is unchanged, and each row's finish timestamp becomes the new value. -/
theorem c10_setFinished_frame (st : AppsScriptLogger) (now : String) (i : Nat) :
    (st.setFinished now).rows.length = st.rows.length
    ∧ ((st.setFinished now).rows.get? i).map LogRow.runId = (st.rows.get? i).map LogRow.runId
    ∧ ((st.setFinished now).rows.get? i).map LogRow.startedAt = (st.rows.get? i).map LogRow.startedAt
    ∧ ((st.setFinished now).rows.get? i).map LogRow.country = (st.rows.get? i).map LogRow.country
    ∧ ((st.setFinished now).rows.get? i).map LogRow.url = (st.rows.get? i).map LogRow.url
    ∧ ((st.setFinished now).rows.get? i).map LogRow.status = (st.rows.get? i).map LogRow.status
    ∧ ((st.setFinished now).rows.get? i).map LogRow.cfCache = (st.rows.get? i).map LogRow.cfCache
    ∧ ((st.setFinished now).rows.get? i).map LogRow.lsCache = (st.rows.get? i).map LogRow.lsCache
    ∧ ((st.setFinished now).rows.get? i).map LogRow.cfRay = (st.rows.get? i).map LogRow.cfRay
    ∧ ((st.setFinished now).rows.get? i).map LogRow.responseMs
        = (st.rows.get? i).map LogRow.responseMs
    ∧ ((st.setFinished now).rows.get? i).map LogRow.error = (st.rows.get? i).map LogRow.error
    ∧ ((st.setFinished now).rows.get? i).map LogRow.message = (st.rows.get? i).map LogRow.message
    ∧ ((st.setFinished now).rows.get? i).map LogRow.finishedAt
        = (st.rows.get? i).map (fun _ => some now) := by
  have hrows : (st.setFinished now).rows
      = st.rows.map (fun r => { r with finishedAt := some now }) := rfl
  rw [hrows]
  cases hi : st.rows.get? i with
  | none =>
    simp only [List.get?_map, hi, Option.map_none', List.length_map]
    simp
  | some r =>
    simp only [List.get?_map, hi, Option.map_some', List.length_map]
    simp

end CacheWarmer
